import Mathlib

/-!
Verification development for the Epileptic Seizure Prediction System
repository (React frontend `src/App.tsx`, API helper `src/utils/api.ts`)
and the multi-modal ingestion pipeline designed in its specification.

Part 1 models the ingestion/validation pipeline of spec §3-§7: the
pipeline itself has no implementation under `src/`, so its definitions
are modelled from the spec's words (each such definition says so in its
doc comment).  Part 2 embeds the frontend code of `src/App.tsx` and
`src/utils/api.ts` directly from the source.
-/

namespace Ingestion

/-- The three independent data sources (spec §3, glossary). -/
inductive Modality where
  | EEG
  | MRI
  | FMRI
deriving DecidableEq, Repr

/-- Error kinds of spec §7; `Timeout` is produced by the optional
caller-supplied deadline of spec §5. -/
inductive ErrorKind where
  | FormatMismatch
  | CorruptPayload
  | SizeMismatch
  | SpatialMismatch
  | Timeout
deriving DecidableEq, Repr

/-- The single non-fatal warning kind of spec §7. -/
inductive Warning where
  | ModalityImbalance
deriving DecidableEq, Repr

/-- Modelled from the spec: the file formats of spec §4.1 step 1
(EEG formats edf, bdf, csv; volumetric formats nii and gzipped nii). -/
inductive FileFormat where
  | edf
  | bdf
  | csv
  | nii
  | niigz
deriving DecidableEq, Repr

/-- Modelled from the spec: the extension string naming each format. -/
def extOf : FileFormat → String
  | .edf => "edf"
  | .bdf => "bdf"
  | .csv => "csv"
  | .nii => "nii"
  | .niigz => "nii.gz"

/-- Modelled from the spec: magic bytes (glossary: leading bytes of a
file used to verify its true format independent of its extension).
The concrete byte values are a model choice; gzipped nii carries the
gzip magic. -/
def magicOf : FileFormat → List Nat
  | .edf => [48]
  | .bdf => [255]
  | .csv => [44]
  | .nii => [110, 105]
  | .niigz => [31, 139]

/-- Modelled from the spec: the allowed format set per modality of
spec §4.1 step 1 (EEG in edf, bdf, csv; MRI and fMRI in nii, nii.gz). -/
def allowedFormats : Modality → List FileFormat
  | .EEG => [.edf, .bdf, .csv]
  | .MRI => [.nii, .niigz]
  | .FMRI => [.nii, .niigz]

/-- A raw upload (spec §3): modality, filename, declared extension and
the materialized bytes.  Bytes are modelled as naturals below 256. -/
structure RawUpload where
  modality : Modality
  filename : String
  declared_extension : String
  bytes : List Nat
deriving DecidableEq, Repr

/-- A decoded EEG signal (spec §3): channel count, sample rate and a
2D samples array indexed channel-major. -/
structure DecodedSignal where
  channel_count : Nat
  sample_rate : Nat
  samples : List (List Nat)
deriving DecidableEq, Repr

/-- A decoded volume (spec §3): shape (x, y, z, t — t is 1 or 0 for
MRI, above 1 for fMRI), voxel spacing and the flattened data array. -/
structure DecodedVolume where
  x : Nat
  y : Nat
  z : Nat
  t : Nat
  spacing : Nat × Nat × Nat
  data : List Nat
deriving DecidableEq, Repr

/-- Whether the leading bytes of a payload are a given format's magic. -/
def matchesMagic (bytes : List Nat) (f : FileFormat) : Bool :=
  bytes.take (magicOf f).length = magicOf f

/-- Modelled from the spec: detect the true format of a payload from
its magic bytes (spec §4.1 step 1). -/
def detectFormat (bytes : List Nat) : Option FileFormat :=
  [FileFormat.niigz, FileFormat.nii, FileFormat.bdf,
   FileFormat.edf, FileFormat.csv].find? (matchesMagic bytes)

/-- Modelled from the spec: spec §4.1 step 1 — the extension must be in
the modality's allowed set and must agree with the detected magic
bytes; any mismatch is `FormatMismatch`. -/
def checkFormat (m : Modality) (u : RawUpload) : Except ErrorKind FileFormat :=
  if u.declared_extension ∈ (allowedFormats m).map extOf then
    match detectFormat u.bytes with
    | none => .error .FormatMismatch
    | some f =>
        if extOf f = u.declared_extension then .ok f
        else .error .FormatMismatch
  else .error .FormatMismatch

/-- Split a flat payload into `rows` rows of width `w` (channel-major). -/
def chunkRows : Nat → Nat → List Nat → List (List Nat)
  | 0, _, _ => []
  | r + 1, w, l => l.take w :: chunkRows r w (l.drop w)

/-- Modelled from the spec: transparently inflate a compressed payload
(spec §4.1 step 2); compression is modelled as run-length pairs, and a
dangling half pair is malformed. -/
def inflateRLE : List Nat → Option (List Nat)
  | [] => some []
  | [_] => none
  | n :: v :: rest => (inflateRLE rest).map (fun l => List.replicate n v ++ l)

/-- Modelled from the spec: per-modality EEG validation (spec §4.1).
Step order: zero-length payload (`SizeMismatch`, step 3 bound, checked
first since an empty byte sequence carries no magic), extension/magic
check, header+payload decode (`CorruptPayload` on truncation or a row
split that does not come out even), bounds (`SizeMismatch` on declared
size not matching actual byte count or non-positive rate/dimensions).
The byte layout after the magic is header `channels :: rate :: declaredLen`
then payload. -/
def validateEEG (u : RawUpload) : Except ErrorKind DecodedSignal :=
  if u.bytes = [] then .error .SizeMismatch
  else
    match checkFormat .EEG u with
    | .error k => .error k
    | .ok f =>
        match u.bytes.drop (magicOf f).length with
        | ch :: sr :: len :: payload =>
            if payload.length < len then .error .CorruptPayload
            else if payload.length ≠ len then .error .SizeMismatch
            else if ch = 0 ∨ sr = 0 ∨ len = 0 then .error .SizeMismatch
            else if len % ch ≠ 0 then .error .CorruptPayload
            else .ok { channel_count := ch, sample_rate := sr,
                       samples := chunkRows ch (len / ch) payload }
        | _ => .error .CorruptPayload

/-- Modelled from the spec: per-modality volumetric validation
(spec §4.1) for MRI/fMRI.  The byte layout after the magic is header
`x :: y :: z :: t :: sx :: sy :: sz :: flag :: declaredLen` then payload;
`flag = 1` marks a compressed payload that is transparently inflated.
`CorruptPayload` on truncation, a bad flag or malformed compressed
data; `SizeMismatch` on declared length not matching the data, a
non-positive dimension, or a t-dimension violating the spec §3
invariant (fMRI t above 1, MRI t at most 1). -/
def validateVolume (m : Modality) (u : RawUpload) : Except ErrorKind DecodedVolume :=
  if u.bytes = [] then .error .SizeMismatch
  else
    match checkFormat m u with
    | .error k => .error k
    | .ok f =>
        match u.bytes.drop (magicOf f).length with
        | x :: y :: z :: t :: sx :: sy :: sz :: flag :: len :: payload =>
            if 1 < flag then .error .CorruptPayload
            else
              match (if flag = 1 then inflateRLE payload else some payload) with
              | none => .error .CorruptPayload
              | some data =>
                  if data.length < len then .error .CorruptPayload
                  else if data.length ≠ len then .error .SizeMismatch
                  else if x = 0 ∨ y = 0 ∨ z = 0 then .error .SizeMismatch
                  else if len ≠ x * y * z * (max t 1) then .error .SizeMismatch
                  else if m = .FMRI ∧ t ≤ 1 then .error .SizeMismatch
                  else if m = .MRI ∧ 1 < t then .error .SizeMismatch
                  else .ok { x := x, y := y, z := z, t := t,
                             spacing := (sx, sy, sz), data := data }
        | _ => .error .CorruptPayload

/-- Modelled from the spec: optional caller-supplied deadline (spec §5)
for the EEG decode; `elapsed` is the abstract decode duration of this
modality, and exceeding the deadline yields `Timeout` for it. -/
def validateEEGD (deadline : Option Nat) (elapsed : Nat) (u : RawUpload) :
    Except ErrorKind DecodedSignal :=
  match deadline with
  | some d => if d < elapsed then .error .Timeout else validateEEG u
  | none => validateEEG u

/-- Modelled from the spec: optional caller-supplied deadline (spec §5)
for a volumetric decode. -/
def validateVolumeD (deadline : Option Nat) (elapsed : Nat) (m : Modality)
    (u : RawUpload) : Except ErrorKind DecodedVolume :=
  match deadline with
  | some d => if d < elapsed then .error .Timeout else validateVolume m u
  | none => validateVolume m u

/-- An entry of the aggregated error report (spec §7): either a
per-modality failure with its kind, or a cross-modality failure. -/
inductive IngestErr where
  | modality (m : Modality) (k : ErrorKind)
  | cross (k : ErrorKind)
deriving DecidableEq, Repr

/-- The report entries contributed by one modality's validation
outcome: its error kind on failure, nothing on success. -/
def errOf (m : Modality) {α : Type} : Except ErrorKind α → List IngestErr
  | .error k => [.modality m k]
  | .ok _ => []

/-- Minimum of a byte list (0 on empty). -/
def listMinD : List Nat → Nat
  | [] => 0
  | a :: rest => rest.foldr Nat.min a

/-- Maximum of a byte list (0 on empty). -/
def listMaxD : List Nat → Nat
  | [] => 0
  | a :: rest => rest.foldr Nat.max a

/-- EEG duration: samples per channel over sample rate (spec §4.1). -/
def eegDuration (de : DecodedSignal) : ℚ :=
  ((de.samples.headD []).length : ℚ) / (de.sample_rate : ℚ)

/-- fMRI temporal length (spec §4.1): the t-dimension. -/
def fmriDuration (df : DecodedVolume) : ℚ := (df.t : ℚ)

/-- Modelled from the spec: the non-fatal `ModalityImbalance` warning
(spec §4.1) flagged when one duration is more than 10 times the other. -/
def imbalanceWarnings (de : DecodedSignal) (df : DecodedVolume) : List Warning :=
  if eegDuration de > 10 * fmriDuration df ∨ fmriDuration df > 10 * eegDuration de
  then [.ModalityImbalance] else []

/-- The canonical multimodal sample (spec §3): one decoded signal, two
decoded volumes and derived metadata (per-modality min/max, durations,
and the duration ratio recorded for the downstream model). -/
structure MultimodalSample where
  signal : DecodedSignal
  mri : DecodedVolume
  fmri : DecodedVolume
  eegMin : Nat
  eegMax : Nat
  mriMin : Nat
  mriMax : Nat
  fmriMin : Nat
  fmriMax : Nat
  eegDur : ℚ
  fmriDur : ℚ
  durationRatio : ℚ
deriving DecidableEq, Repr

/-- A successful ingestion outcome: the sample plus any non-fatal
warnings attached to it (spec §7). -/
structure IngestOk where
  sample : MultimodalSample
  warnings : List Warning
deriving DecidableEq, Repr

/-- Modelled from the spec: assemble the sample and its derived
metadata from the three decoded inputs. -/
def mkSample (de : DecodedSignal) (dm df : DecodedVolume) : MultimodalSample :=
  { signal := de, mri := dm, fmri := df,
    eegMin := listMinD (de.samples.foldr (· ++ ·) []),
    eegMax := listMaxD (de.samples.foldr (· ++ ·) []),
    mriMin := listMinD dm.data, mriMax := listMaxD dm.data,
    fmriMin := listMinD df.data, fmriMax := listMaxD df.data,
    eegDur := eegDuration de, fmriDur := fmriDuration df,
    durationRatio := eegDuration de / fmriDuration df }

/-- Modelled from the spec: join the three independent validation
outcomes (spec §2, §4.1).  If any modality failed, the aggregated
report lists every failing modality with its specific kind; otherwise
the cross-modality spatial check runs (in-plane x,y resolution, default
tolerance 0 so exact match) and on success the sample is built with its
imbalance warnings. -/
def joinResults (re : Except ErrorKind DecodedSignal)
    (rm rf : Except ErrorKind DecodedVolume) : Except (List IngestErr) IngestOk :=
  match re, rm, rf with
  | .ok de, .ok dm, .ok df =>
      if dm.x = df.x ∧ dm.y = df.y then
        .ok { sample := mkSample de dm df, warnings := imbalanceWarnings de df }
      else .error [.cross .SpatialMismatch]
  | re, rm, rf => .error (errOf .EEG re ++ errOf .MRI rm ++ errOf .FMRI rf)

/-- Modelled from the spec: the full pipeline with the optional
caller-supplied deadline of spec §5; `tE`, `tM`, `tF` are the abstract
decode durations of the three modalities. -/
def ingestD (deadline : Option Nat) (tE tM tF : Nat)
    (eeg mri fmri : RawUpload) : Except (List IngestErr) IngestOk :=
  joinResults (validateEEGD deadline tE eeg)
    (validateVolumeD deadline tM .MRI mri)
    (validateVolumeD deadline tF .FMRI fmri)

/-- Modelled from the spec: the public contract
`ingest(eeg, mri, fmri)` of spec §4.1, without a deadline. -/
def ingest (eeg mri fmri : RawUpload) : Except (List IngestErr) IngestOk :=
  joinResults (validateEEG eeg) (validateVolume .MRI mri)
    (validateVolume .FMRI fmri)

end Ingestion

namespace Frontend

/-- File-picker accept list of the MRI upload input
(`src/App.tsx`, `accept=".nii,.dcm,.nii.gz"`). -/
def mriAccept : List String := [".nii", ".dcm", ".nii.gz"]

/-- File-picker accept list of the fMRI upload input
(`src/App.tsx`, `accept=".nii,.dcm,.nii.gz"`). -/
def fmriAccept : List String := [".nii", ".dcm", ".nii.gz"]

/-- File-picker accept list of the EEG upload input
(`src/App.tsx`, `accept=".edf,.bdf,.cnt,.vhdr"`). -/
def eegAccept : List String := [".edf", ".bdf", ".cnt", ".vhdr"]

/-- The allowed MRI format set stated by the spec (spec §4.1 step 1:
MRI in nii, nii.gz), as dotted extensions for comparison with the
accept lists. -/
def specMriExts : List String := [".nii", ".nii.gz"]

/-- The allowed fMRI format set stated by the spec (spec §4.1 step 1). -/
def specFmriExts : List String := [".nii", ".nii.gz"]

/-- The allowed EEG format set stated by the spec (spec §4.1 step 1:
EEG in edf, bdf, csv). -/
def specEegExts : List String := [".edf", ".bdf", ".csv"]

/-- The `prediction` union type of `ClassificationResult`
(`src/App.tsx`): 'Seizure Risk' | 'Normal' | 'Pre-ictal'. -/
inductive Prediction where
  | SeizureRisk
  | Normal
  | PreIctal
deriving DecidableEq, Repr

/-- `ClassificationResult` (`src/App.tsx`): prediction label,
confidence, timestamp and the three per-modality detail scores.
Numbers are modelled as rationals. -/
structure ClassificationResult where
  prediction : Prediction
  confidence : ℚ
  timestamp : String
  mriScore : ℚ
  fmriScore : ℚ
  eegScore : ℚ
deriving DecidableEq, Repr

/-- The browser `File` object as the code uses it: name, byte size,
MIME type and content bytes. -/
structure FileData where
  name : String
  size : Nat
  mime : String
  content : List Nat
deriving DecidableEq, Repr

/-- The status union of `UploadedFile` (`src/App.tsx`). -/
inductive UStatus where
  | uploaded
  | processing
  | processed
deriving DecidableEq, Repr

/-- `UploadedFile` (`src/App.tsx`): display name, size label, type,
status and the stored `File` object. -/
structure UploadedFile where
  name : String
  sizeLabel : String
  mime : String
  status : UStatus
  file : FileData
deriving DecidableEq, Repr

/-- The size label `(file.size / 1024 / 1024).toFixed(2) + ' MB'`,
modelled with integer division in place of the two-decimal float
format. -/
def sizeLabelOf (size : Nat) : String :=
  toString (size / 1024 / 1024) ++ " MB"

/-- Build the `UploadedFile` entry `handleFileUpload` creates for one
browser file (`src/App.tsx`). -/
def mkUploadedFile (f : FileData) : UploadedFile :=
  { name := f.name, sizeLabel := sizeLabelOf f.size, mime := f.mime,
    status := .uploaded, file := f }

/-- The status union of `ProcessingStatus` (`src/App.tsx`). -/
inductive PStatus where
  | idle
  | processing
  | completed
  | error
deriving DecidableEq, Repr

/-- `ProcessingStatus` (`src/App.tsx`). -/
structure ProcessingStatus where
  stage : String
  progress : ℚ
  status : PStatus
deriving DecidableEq, Repr

/-- `ModelConfig` (`src/App.tsx`). -/
structure ModelConfig where
  layers : Nat
  filters : Nat
  kernelSize : Nat
  learningRate : ℚ
  batchSize : Nat
  fusionMethod : String
deriving DecidableEq, Repr

/-- The three upload lists keyed 'mri' | 'fmri' | 'eeg'. -/
inductive ModKind where
  | mri
  | fmri
  | eeg
deriving DecidableEq, Repr

/-- The React state of `App` (`src/App.tsx`): active tab, the three
upload lists, processing status, results and model configuration. -/
structure AppState where
  activeTab : String
  mriFiles : List UploadedFile
  fmriFiles : List UploadedFile
  eegFiles : List UploadedFile
  processingStatus : ProcessingStatus
  results : List ClassificationResult
  modelConfig : ModelConfig
deriving DecidableEq, Repr

/-- The initial `useState` values of `App` (`src/App.tsx`). -/
def initState : AppState :=
  { activeTab := "upload", mriFiles := [], fmriFiles := [], eegFiles := [],
    processingStatus := { stage := "Ready to process", progress := 0, status := .idle },
    results := [],
    modelConfig := { layers := 5, filters := 32, kernelSize := 3,
                     learningRate := 1 / 1000, batchSize := 16,
                     fusionMethod := "early" } }

/-- Read one upload list of the state. -/
def filesOf (s : AppState) : ModKind → List UploadedFile
  | .mri => s.mriFiles
  | .fmri => s.fmriFiles
  | .eeg => s.eegFiles

/-- Replace one upload list of the state. -/
def setFiles (s : AppState) : ModKind → List UploadedFile → AppState
  | .mri, l => { s with mriFiles := l }
  | .fmri, l => { s with fmriFiles := l }
  | .eeg, l => { s with eegFiles := l }

/-- `handleFileUpload` (`src/App.tsx`): a null file list is ignored,
otherwise the new entries are appended to the modality's list. -/
def handleFileUpload (ty : ModKind) (files : Option (List FileData))
    (s : AppState) : AppState :=
  match files with
  | none => s
  | some fs => setFiles s ty (filesOf s ty ++ fs.map mkUploadedFile)

/-- `removeFile` (`src/App.tsx`): keep every entry whose index differs
from the removed one. -/
def removeFile (ty : ModKind) (idx : Nat) (s : AppState) : AppState :=
  setFiles s ty ((filesOf s ty).eraseIdx idx)

/-- `hasRequiredFiles` (`src/App.tsx`): all three lists non-empty. -/
def hasRequiredFiles (s : AppState) : Bool :=
  0 < s.mriFiles.length && 0 < s.fmriFiles.length && 0 < s.eegFiles.length

/-- The `prediction` payload of `PredictionResponse`
(`src/utils/api.ts`); `seizure_probability` may be absent, which the
caller checks for. -/
structure PredictionPayload where
  seizure_probability : Option ℚ
  seizure_type : String
deriving DecidableEq, Repr

/-- `PredictionResponse` (`src/utils/api.ts`): optional prediction
payload and optional error string. -/
structure PredictionResponse where
  prediction : Option PredictionPayload
  error : Option String
deriving DecidableEq, Repr

/-- The environment of one `simulateProcessing` run: the backend's
response (or a thrown error message) as a function of the posted file
triple, the three `Math.random()` draws (mri, fmri, eeg order) and the
`new Date().toLocaleString()` timestamp. -/
structure ProcEnv where
  respond : FileData × FileData × FileData → Except String PredictionResponse
  rMri : ℚ
  rFmri : ℚ
  rEeg : ℚ
  timestamp : String

/-- The file triple `simulateProcessing` posts (`src/App.tsx`): the
`file` of index 0 of each upload list, in the eeg/mri/fmri order of the
`predictSeizure` call; `none` when any list is empty. -/
def sentRequest (s : AppState) : Option (FileData × FileData × FileData) :=
  match s.eegFiles.head?, s.mriFiles.head?, s.fmriFiles.head? with
  | some e, some m, some f => some (e.file, m.file, f.file)
  | _, _, _ => none

/-- The single result entry built on a successful backend response
(`src/App.tsx`): 'Seizure Risk' exactly when the probability exceeds
0.7, confidence equal to the probability, and the three random detail
scores. -/
def mkResult (prob rMri rFmri rEeg : ℚ) (ts : String) : ClassificationResult :=
  { prediction := if 7 / 10 < prob then .SeizureRisk else .Normal,
    confidence := prob, timestamp := ts,
    mriScore := rMri, fmriScore := rFmri, eegScore := rEeg }

/-- The 'Error occurred' status update shared by the error paths of
`simulateProcessing` (`src/App.tsx`). -/
def errorState (s : AppState) : AppState :=
  { s with processingStatus :=
      { stage := "Error occurred", progress := 0, status := .error } }

/-- `simulateProcessing` (`src/App.tsx`), as a state transition: the
guard on `hasRequiredFiles`, the missing-file check on the index-0
files, the backend call, the `response.error` check, the
`response.prediction` / `seizure_probability` presence checks, and on
success the single-element `results` update, completed status and tab
switch. -/
def simulateProcessing (s : AppState) (env : ProcEnv) : AppState :=
  if hasRequiredFiles s = false then s
  else
    match sentRequest s with
    | none =>
        { s with processingStatus :=
            { stage := "Error: Missing files", progress := 0, status := .error } }
    | some req =>
        match env.respond req with
        | .error _ => errorState s
        | .ok resp =>
            match resp.error with
            | some _ => errorState s
            | none =>
                match resp.prediction with
                | none => errorState s
                | some p =>
                    match p.seizure_probability with
                    | none => errorState s
                    | some prob =>
                        { s with
                          results := [mkResult prob env.rMri env.rFmri env.rEeg env.timestamp],
                          processingStatus :=
                            { stage := "Analysis Complete", progress := 100,
                              status := .completed },
                          activeTab := "results" }

/-- The user-driven events of the `App` component (`src/App.tsx`). -/
inductive Event where
  | upload (ty : ModKind) (files : Option (List FileData))
  | remove (ty : ModKind) (idx : Nat)
  | setTab (t : String)
  | setConfig (c : ModelConfig)
  | process (env : ProcEnv)

/-- One state transition of the `App` component. -/
def step (s : AppState) : Event → AppState
  | .upload ty files => handleFileUpload ty files s
  | .remove ty idx => removeFile ty idx s
  | .setTab t => { s with activeTab := t }
  | .setConfig c => { s with modelConfig := c }
  | .process env => simulateProcessing s env

/-- The states reachable from the initial state by user events. -/
inductive Reachable : AppState → Prop where
  | init : Reachable initState
  | step : ∀ {s : AppState}, Reachable s → ∀ ev : Event, Reachable (step s ev)

/-- An HTTP response as `src/utils/api.ts` reads it: the `ok` flag and
the status code. -/
structure HttpResponse where
  ok : Bool
  status : Nat
deriving DecidableEq, Repr

/-- `checkBackendHealth` (`src/utils/api.ts`): the underlying fetch of
`/docs` either resolves with a response or rejects; the function
returns `response.ok` on resolution and `false` from the catch-all on
any rejection. -/
def checkBackendHealth (o : Except String HttpResponse) : Bool :=
  match o with
  | .ok r => r.ok
  | .error _ => false

end Frontend

namespace Examples

open Ingestion Frontend

/-- A well-formed EEG upload: edf magic, 1 channel, rate 1, 1 sample. -/
def eegGood : RawUpload := ⟨.EEG, "rec.edf", "edf", [48, 1, 1, 1, 5]⟩

/-- The same bytes and extension as `eegGood` under another filename. -/
def eegCopy : RawUpload := ⟨.EEG, "copy.edf", "edf", [48, 1, 1, 1, 5]⟩

/-- A well-formed MRI upload: nii magic, shape (1,1,1), t = 1. -/
def mriGood : RawUpload := ⟨.MRI, "anat.nii", "nii", [110, 105, 1, 1, 1, 1, 1, 1, 1, 0, 1, 7]⟩

/-- A well-formed fMRI upload: nii magic, shape (1,1,1,2). -/
def fmriGood : RawUpload := ⟨.FMRI, "bold.nii", "nii", [110, 105, 1, 1, 1, 2, 1, 1, 1, 0, 2, 7, 8]⟩

/-- A well-formed fMRI upload of shape (2,1,1,2): its in-plane x
differs from `mriGood`. -/
def fmriWide : RawUpload :=
  ⟨.FMRI, "bold.nii", "nii", [110, 105, 2, 1, 1, 2, 1, 1, 1, 0, 4, 7, 8, 9, 10]⟩

/-- A truncated EEG upload: the magic byte alone, no header. -/
def eegTrunc : RawUpload := ⟨.EEG, "rec.edf", "edf", [48]⟩

/-- An MRI upload whose leading byte is the csv magic: its magic
contradicts the declared nii extension. -/
def mriBadMagic : RawUpload := ⟨.MRI, "anat.nii", "nii", [44, 1]⟩

/-- The decoded signal of `eegGood`. -/
def eegGoodSig : DecodedSignal := ⟨1, 1, [[5]]⟩

/-- The decoded volume of `mriGood`. -/
def mriGoodVol : DecodedVolume := ⟨1, 1, 1, 1, (1, 1, 1), [7]⟩

/-- The decoded volume of `fmriGood`. -/
def fmriGoodVol : DecodedVolume := ⟨1, 1, 1, 2, (1, 1, 1), [7, 8]⟩

/-- The decoded volume of `fmriWide`. -/
def fmriWideVol : DecodedVolume := ⟨2, 1, 1, 2, (1, 1, 1), [7, 8, 9, 10]⟩

/-- A browser file for the frontend examples. -/
def fileEdf : FileData := ⟨"rec.edf", 2048, "application/octet-stream", [48, 1, 1, 1, 5]⟩

/-- A second browser file for the frontend examples. -/
def fileNii : FileData := ⟨"anat.nii", 4096, "application/octet-stream", [110, 105]⟩

/-- A processing environment whose backend answers with probability
9/10 and whose random draws are 1/4, 1/3, 1/5. -/
def envOk : ProcEnv :=
  { respond := fun _ => .ok
      { prediction := some { seizure_probability := some (9 / 10), seizure_type := "Focal" },
        error := none },
    rMri := 1 / 4, rFmri := 1 / 3, rEeg := 1 / 5, timestamp := "t" }

/-- A processing environment whose backend call throws. -/
def envDown : ProcEnv :=
  { respond := fun _ => .error "network down",
    rMri := 0, rFmri := 0, rEeg := 0, timestamp := "t" }

/-- The state after uploading one file to each modality. -/
def sUp : AppState :=
  Frontend.step
    (Frontend.step
      (Frontend.step initState (.upload .mri (some [fileNii])))
      (.upload .fmri (some [fileNii])))
    (.upload .eeg (some [fileEdf]))

/-- The state after a successful processing run from `sUp`. -/
def sDone : AppState := Frontend.step sUp (.process envOk)

/-- The single classification result stored in `sDone`. -/
def resultDone : ClassificationResult := mkResult (9 / 10) (1 / 4) (1 / 3) (1 / 5) "t"

end Examples

open Ingestion Frontend Examples

/-- The aggregated per-modality failure list of one `ingest`
invocation: each modality's validation error, in modality order. -/
def failureReport (eeg mri fmri : RawUpload) : List IngestErr :=
  errOf .EEG (validateEEG eeg) ++ errOf .MRI (validateVolume .MRI mri) ++
    errOf .FMRI (validateVolume .FMRI fmri)

/-- The aggregated per-modality failure list of one deadline-aware
`ingestD` invocation. -/
def failureReportD (dl : Option Nat) (tE tM tF : Nat)
    (e m f : RawUpload) : List IngestErr :=
  errOf .EEG (validateEEGD dl tE e) ++
    errOf .MRI (validateVolumeD dl tM .MRI m) ++
    errOf .FMRI (validateVolumeD dl tF .FMRI f)

/-- Append further uploaded files to each modality list of a state. -/
def appendUploads (s : AppState) (xs ys zs : List UploadedFile) : AppState :=
  { s with mriFiles := s.mriFiles ++ xs, fmriFiles := s.fmriFiles ++ ys,
           eegFiles := s.eegFiles ++ zs }

theorem mem_errOf {α : Type} (m m' : Modality) (k : ErrorKind)
    (r : Except ErrorKind α) :
    IngestErr.modality m k ∈ errOf m' r ↔ m = m' ∧ r = .error k := by
  cases r <;> simp [errOf] <;> aesop

theorem joinResults_of_failure (re : Except ErrorKind DecodedSignal)
    (rm rf : Except ErrorKind DecodedVolume)
    (h : errOf Modality.EEG re ++ errOf .MRI rm ++ errOf .FMRI rf ≠ []) :
    joinResults re rm rf =
      .error (errOf .EEG re ++ errOf .MRI rm ++ errOf .FMRI rf) := by
  cases re <;> cases rm <;> cases rf <;> simp [joinResults, errOf] at h ⊢

/-- C1: whenever at least one modality fails validation, `ingest`
returns a single aggregated error report; the report lists, for every
modality, exactly its validation failures (so every modality is still
validated, with no short-circuit after the first failure), and every
report entry is a per-modality failure. -/
theorem ingest_aggregates_all_failures (eeg mri fmri : RawUpload)
    (h : failureReport eeg mri fmri ≠ []) :
    ingest eeg mri fmri = .error (failureReport eeg mri fmri) ∧
    (∀ k, IngestErr.modality .EEG k ∈ failureReport eeg mri fmri ↔
      validateEEG eeg = .error k) ∧
    (∀ k, IngestErr.modality .MRI k ∈ failureReport eeg mri fmri ↔
      validateVolume .MRI mri = .error k) ∧
    (∀ k, IngestErr.modality .FMRI k ∈ failureReport eeg mri fmri ↔
      validateVolume .FMRI fmri = .error k) ∧
    (∀ e ∈ failureReport eeg mri fmri, ∃ m k, e = IngestErr.modality m k) := by
  refine ⟨joinResults_of_failure _ _ _ h, ?_, ?_, ?_, ?_⟩
  · intro k
    simp only [failureReport, List.mem_append, mem_errOf]
    aesop
  · intro k
    simp only [failureReport, List.mem_append, mem_errOf]
    aesop
  · intro k
    simp only [failureReport, List.mem_append, mem_errOf]
    aesop
  · intro e he
    simp only [failureReport, List.mem_append] at he
    rcases he with (he | he) | he <;>
      · revert he
        unfold errOf
        split <;> simp <;> aesop

/-- Witness for C1: an invocation with a truncated EEG file and an MRI
file whose magic contradicts its extension; both failures appear in
the one report, each with its own kind. -/
theorem ingest_aggregates_all_failures_witness :
    failureReport eegTrunc mriBadMagic fmriGood ≠ [] ∧
    (ingest eegTrunc mriBadMagic fmriGood =
        .error (failureReport eegTrunc mriBadMagic fmriGood) ∧
      (∀ k, IngestErr.modality .EEG k ∈ failureReport eegTrunc mriBadMagic fmriGood ↔
        validateEEG eegTrunc = .error k) ∧
      (∀ k, IngestErr.modality .MRI k ∈ failureReport eegTrunc mriBadMagic fmriGood ↔
        validateVolume .MRI mriBadMagic = .error k) ∧
      (∀ k, IngestErr.modality .FMRI k ∈ failureReport eegTrunc mriBadMagic fmriGood ↔
        validateVolume .FMRI fmriGood = .error k) ∧
      (∀ e ∈ failureReport eegTrunc mriBadMagic fmriGood,
        ∃ m k, e = IngestErr.modality m k)) :=
  ⟨by decide, ingest_aggregates_all_failures eegTrunc mriBadMagic fmriGood (by decide)⟩

theorem validateEEG_ignores_name (m1 m2 : Modality) (n1 n2 ext : String)
    (b : List Nat) :
    validateEEG ⟨m1, n1, ext, b⟩ = validateEEG ⟨m2, n2, ext, b⟩ := rfl

theorem validateVolume_ignores_name (mo : Modality) (m1 m2 : Modality)
    (n1 n2 ext : String) (b : List Nat) :
    validateVolume mo ⟨m1, n1, ext, b⟩ = validateVolume mo ⟨m2, n2, ext, b⟩ := rfl

/-- C2: `ingest` is deterministic in its inputs — two invocations on
byte-identical files (same declared extension and same bytes; filename
and modality tag may differ) return identical results: the same
decoded arrays, the same warnings and the same error report. -/
theorem ingest_deterministic (e1 e2 m1 m2 f1 f2 : RawUpload)
    (he : e1.declared_extension = e2.declared_extension ∧ e1.bytes = e2.bytes)
    (hm : m1.declared_extension = m2.declared_extension ∧ m1.bytes = m2.bytes)
    (hf : f1.declared_extension = f2.declared_extension ∧ f1.bytes = f2.bytes) :
    ingest e1 m1 f1 = ingest e2 m2 f2 := by
  obtain ⟨a1, a2, a3, a4⟩ := e1
  obtain ⟨b1, b2, b3, b4⟩ := e2
  obtain ⟨c1, c2, c3, c4⟩ := m1
  obtain ⟨d1, d2, d3, d4⟩ := m2
  obtain ⟨g1, g2, g3, g4⟩ := f1
  obtain ⟨k1, k2, k3, k4⟩ := f2
  obtain ⟨he1, he2⟩ := he
  obtain ⟨hm1, hm2⟩ := hm
  obtain ⟨hf1, hf2⟩ := hf
  simp only at he1 he2 hm1 hm2 hf1 hf2
  subst he1; subst he2; subst hm1; subst hm2; subst hf1; subst hf2
  rfl

/-- Witness for C2: the same EEG bytes under two different filenames
ingest to identical results. -/
theorem ingest_deterministic_witness :
    ingest eegGood mriGood fmriGood = ingest eegCopy mriGood fmriGood :=
  ingest_deterministic eegGood eegCopy mriGood mriGood fmriGood fmriGood
    ⟨rfl, rfl⟩ ⟨rfl, rfl⟩ ⟨rfl, rfl⟩

/-- C7: when all three modalities decode but the MRI and fMRI in-plane
resolutions (x, y) differ (the default tolerance is exact match),
`ingest` returns the `SpatialMismatch` error and no sample. -/
theorem ingest_spatial_mismatch (e m f : RawUpload) (de : DecodedSignal)
    (dm df : DecodedVolume) (he : validateEEG e = .ok de)
    (hm : validateVolume .MRI m = .ok dm)
    (hf : validateVolume .FMRI f = .ok df)
    (hxy : ¬(dm.x = df.x ∧ dm.y = df.y)) :
    ingest e m f = .error [.cross .SpatialMismatch] := by
  unfold ingest
  rw [he, hm, hf]
  simp [joinResults, hxy]

/-- Witness for C7: an MRI of shape (1,1,1) against an fMRI of shape
(2,1,1,2) yields exactly the `SpatialMismatch` report. -/
theorem ingest_spatial_mismatch_witness :
    validateEEG eegGood = .ok eegGoodSig ∧
    validateVolume .MRI mriGood = .ok mriGoodVol ∧
    validateVolume .FMRI fmriWide = .ok fmriWideVol ∧
    ingest eegGood mriGood fmriWide = .error [.cross .SpatialMismatch] :=
  ⟨by rfl, by rfl, by rfl,
    ingest_spatial_mismatch eegGood mriGood fmriWide eegGoodSig mriGoodVol
      fmriWideVol (by rfl) (by rfl) (by rfl) (by decide)⟩

theorem failureReportD_mem (dl : Option Nat) (tE tM tF : Nat)
    (e m f : RawUpload) :
    (∀ k, IngestErr.modality .EEG k ∈ failureReportD dl tE tM tF e m f ↔
      validateEEGD dl tE e = .error k) ∧
    (∀ k, IngestErr.modality .MRI k ∈ failureReportD dl tE tM tF e m f ↔
      validateVolumeD dl tM .MRI m = .error k) ∧
    (∀ k, IngestErr.modality .FMRI k ∈ failureReportD dl tE tM tF e m f ↔
      validateVolumeD dl tF .FMRI f = .error k) := by
  refine ⟨fun k => ?_, fun k => ?_, fun k => ?_⟩ <;>
    · simp only [failureReportD, List.mem_append, mem_errOf]
      aesop

theorem ingestD_error_of_fail (dl : Option Nat) (tE tM tF : Nat)
    (e m f : RawUpload) (h : failureReportD dl tE tM tF e m f ≠ []) :
    ingestD dl tE tM tF e m f = .error (failureReportD dl tE tM tF e m f) :=
  joinResults_of_failure _ _ _ h

/-- C4: with a caller-supplied deadline, a modality whose decode does
not complete in time contributes a `Timeout` error attributed to that
modality, while the report still carries exactly the other two
modalities' own validation outcomes; this holds for each of the three
modalities. -/
theorem ingestD_timeout_per_modality (d tE tM tF : Nat) (e m f : RawUpload) :
    (d < tE →
      ingestD (some d) tE tM tF e m f =
        .error (failureReportD (some d) tE tM tF e m f) ∧
      IngestErr.modality .EEG .Timeout ∈ failureReportD (some d) tE tM tF e m f ∧
      (∀ k, IngestErr.modality .MRI k ∈ failureReportD (some d) tE tM tF e m f ↔
        validateVolumeD (some d) tM .MRI m = .error k) ∧
      (∀ k, IngestErr.modality .FMRI k ∈ failureReportD (some d) tE tM tF e m f ↔
        validateVolumeD (some d) tF .FMRI f = .error k)) ∧
    (d < tM →
      ingestD (some d) tE tM tF e m f =
        .error (failureReportD (some d) tE tM tF e m f) ∧
      IngestErr.modality .MRI .Timeout ∈ failureReportD (some d) tE tM tF e m f ∧
      (∀ k, IngestErr.modality .EEG k ∈ failureReportD (some d) tE tM tF e m f ↔
        validateEEGD (some d) tE e = .error k) ∧
      (∀ k, IngestErr.modality .FMRI k ∈ failureReportD (some d) tE tM tF e m f ↔
        validateVolumeD (some d) tF .FMRI f = .error k)) ∧
    (d < tF →
      ingestD (some d) tE tM tF e m f =
        .error (failureReportD (some d) tE tM tF e m f) ∧
      IngestErr.modality .FMRI .Timeout ∈ failureReportD (some d) tE tM tF e m f ∧
      (∀ k, IngestErr.modality .EEG k ∈ failureReportD (some d) tE tM tF e m f ↔
        validateEEGD (some d) tE e = .error k) ∧
      (∀ k, IngestErr.modality .MRI k ∈ failureReportD (some d) tE tM tF e m f ↔
        validateVolumeD (some d) tM .MRI m = .error k)) := by
  obtain ⟨hmemE, hmemM, hmemF⟩ := failureReportD_mem (some d) tE tM tF e m f
  refine ⟨fun h => ?_, fun h => ?_, fun h => ?_⟩
  · have hE : validateEEGD (some d) tE e = .error .Timeout := by
      simp [validateEEGD, h]
    have hne : failureReportD (some d) tE tM tF e m f ≠ [] := by
      simp [failureReportD, hE, errOf]
    exact ⟨ingestD_error_of_fail _ _ _ _ _ _ _ hne, (hmemE .Timeout).mpr hE,
      hmemM, hmemF⟩
  · have hM : validateVolumeD (some d) tM .MRI m = .error .Timeout := by
      simp [validateVolumeD, h]
    have hne : failureReportD (some d) tE tM tF e m f ≠ [] := by
      simp [failureReportD, hM, errOf]
    exact ⟨ingestD_error_of_fail _ _ _ _ _ _ _ hne, (hmemM .Timeout).mpr hM,
      hmemE, hmemF⟩
  · have hF : validateVolumeD (some d) tF .FMRI f = .error .Timeout := by
      simp [validateVolumeD, h]
    have hne : failureReportD (some d) tE tM tF e m f ≠ [] := by
      simp [failureReportD, hF, errOf]
    exact ⟨ingestD_error_of_fail _ _ _ _ _ _ _ hne, (hmemF .Timeout).mpr hF,
      hmemE, hmemM⟩

/-- Witness for C4: deadline 1 with an EEG decode lasting 2 on
otherwise valid inputs yields exactly the EEG `Timeout` report while
the MRI and fMRI validations come back clean. -/
theorem ingestD_timeout_per_modality_witness :
    (1 < 2 ∧
      ingestD (some 1) 2 0 0 eegGood mriGood fmriGood =
        .error (failureReportD (some 1) 2 0 0 eegGood mriGood fmriGood)) ∧
    failureReportD (some 1) 2 0 0 eegGood mriGood fmriGood =
      [IngestErr.modality .EEG .Timeout] :=
  ⟨⟨by decide,
    ((ingestD_timeout_per_modality 1 2 0 0 eegGood mriGood fmriGood).1
      (by decide)).1⟩, by decide⟩

theorem joinResults_ok_iff (re : Except ErrorKind DecodedSignal)
    (rm rf : Except ErrorKind DecodedVolume) :
    (∃ s, joinResults re rm rf = .ok s) ↔
    ∃ de dm df, re = .ok de ∧ rm = .ok dm ∧ rf = .ok df ∧
      dm.x = df.x ∧ dm.y = df.y := by
  cases re <;> cases rm <;> cases rf <;>
    simp only [joinResults, errOf] <;>
    try simp
  rename_i de dm df
  by_cases h : dm.x = df.x ∧ dm.y = df.y <;> simp [h]

theorem sim_results_or (s : AppState) (env : ProcEnv) :
    (simulateProcessing s env).results = s.results ∨
    ∃ prob, (simulateProcessing s env).results =
        [mkResult prob env.rMri env.rFmri env.rEeg env.timestamp] ∧
      (simulateProcessing s env).processingStatus.status = PStatus.completed := by
  unfold simulateProcessing
  split
  · exact Or.inl rfl
  · split
    · exact Or.inl rfl
    · split
      · exact Or.inl rfl
      · split
        · exact Or.inl rfl
        · split
          · exact Or.inl rfl
          · split
            · exact Or.inl rfl
            · rename_i prob heq
              exact Or.inr ⟨prob, rfl, rfl⟩

/-- C5: a sample exists if and only if all three modalities validate
(including under any deadline) and the cross-modality spatial check
passes — every fatal error kind, `Timeout` included, prevents the
sample; and in the frontend, every error outcome of
`simulateProcessing` leaves the stored results unchanged. -/
theorem no_sample_on_error :
    (∀ (dl : Option Nat) (tE tM tF : Nat) (e m f : RawUpload),
      (∃ s, ingestD dl tE tM tF e m f = .ok s) ↔
      ∃ de dm df, validateEEGD dl tE e = .ok de ∧
        validateVolumeD dl tM .MRI m = .ok dm ∧
        validateVolumeD dl tF .FMRI f = .ok df ∧
        dm.x = df.x ∧ dm.y = df.y) ∧
    (∀ (s : AppState) (env : ProcEnv),
      (simulateProcessing s env).processingStatus.status = PStatus.error →
      (simulateProcessing s env).results = s.results) := by
  constructor
  · intro dl tE tM tF e m f
    exact joinResults_ok_iff _ _ _
  · intro s env h
    rcases sim_results_or s env with h1 | ⟨prob, _, h3⟩
    · exact h1
    · rw [h] at h3
      exact absurd h3 (by simp)

/-- Witness for C5: three valid matching inputs do produce a sample,
and a failing backend call leaves the frontend results untouched. -/
theorem no_sample_on_error_witness :
    (∃ s, ingestD none 0 0 0 eegGood mriGood fmriGood = Except.ok s) ∧
    (simulateProcessing sUp envDown).processingStatus.status = PStatus.error ∧
    (simulateProcessing sUp envDown).results = sUp.results :=
  ⟨(no_sample_on_error.1 none 0 0 0 eegGood mriGood fmriGood).mpr
      ⟨eegGoodSig, mriGoodVol, fmriGoodVol, rfl, rfl, rfl, rfl, rfl⟩,
    rfl, no_sample_on_error.2 sUp envDown rfl⟩

/-- C3 counterexample: the UI accepts `.dcm` for MRI although the
spec's MRI set is exactly nii/nii.gz, and the spec's EEG set contains
csv although the UI's EEG input does not accept `.csv`. -/
theorem accept_sets_counterexample :
    (".dcm" ∈ mriAccept ∧ ".dcm" ∉ specMriExts) ∧
    (".csv" ∈ specEegExts ∧ ".csv" ∉ eegAccept) := by decide

/-- C3 amended: the accept sets actually enforced by the upload inputs
are MRI/fMRI = {.nii, .dcm, .nii.gz} and EEG = {.edf, .bdf, .cnt,
.vhdr}; relative to the spec's sets they additionally accept `.dcm`
(MRI, fMRI) and `.cnt`, `.vhdr` (EEG), and do not accept `.csv` for
EEG. -/
theorem accept_sets_exact :
    mriAccept = [".nii", ".dcm", ".nii.gz"] ∧
    fmriAccept = [".nii", ".dcm", ".nii.gz"] ∧
    eegAccept = [".edf", ".bdf", ".cnt", ".vhdr"] ∧
    (∀ x ∈ specMriExts, x ∈ mriAccept) ∧
    (∀ x ∈ specFmriExts, x ∈ fmriAccept) ∧
    (".dcm" ∈ mriAccept ∧ ".dcm" ∈ fmriAccept) ∧
    (".cnt" ∈ eegAccept ∧ ".cnt" ∉ specEegExts) ∧
    (".vhdr" ∈ eegAccept ∧ ".vhdr" ∉ specEegExts) ∧
    ".csv" ∉ eegAccept := by decide

/-- C6 counterexample: with the three random draws held fixed at 0,
the stored confidence tracks the backend's seizure probability
exactly — so it is not a randomly generated value with no derivation
from the model output. -/
theorem confidence_counterexample :
    (mkResult (1 / 2) 0 0 0 "t").confidence = 1 / 2 ∧
    (mkResult (9 / 10) 0 0 0 "t").confidence = 9 / 10 ∧
    (1 : ℚ) / 2 ≠ 9 / 10 :=
  ⟨rfl, rfl, by norm_num⟩

/-- C6 amended: in every stored classification result the three
per-modality sub-scores are exactly the environment's three
`Math.random()` draws, independent of the inputs and of the model
output, while the confidence equals the `seizure_probability` carried
by the backend's response to the posted request. -/
theorem scores_random_confidence_from_model :
    (∀ (prob rM rF rE : ℚ) (ts : String),
      (mkResult prob rM rF rE ts).confidence = prob ∧
      (mkResult prob rM rF rE ts).mriScore = rM ∧
      (mkResult prob rM rF rE ts).fmriScore = rF ∧
      (mkResult prob rM rF rE ts).eegScore = rE) ∧
    (∀ (s : AppState) (env : ProcEnv),
      (simulateProcessing s env).results = s.results ∨
      ∃ req resp p prob,
        sentRequest s = some req ∧
        env.respond req = Except.ok resp ∧
        resp.error = none ∧
        resp.prediction = some p ∧
        p.seizure_probability = some prob ∧
        (simulateProcessing s env).results =
          [mkResult prob env.rMri env.rFmri env.rEeg env.timestamp]) := by
  refine ⟨fun prob rM rF rE ts => ⟨rfl, rfl, rfl, rfl⟩, fun s env => ?_⟩
  unfold simulateProcessing
  split
  · exact Or.inl rfl
  · split
    · exact Or.inl rfl
    · split
      · exact Or.inl rfl
      · split
        · exact Or.inl rfl
        · split
          · exact Or.inl rfl
          · split
            · exact Or.inl rfl
            · exact Or.inr ⟨_, _, _, _, by assumption, by assumption,
                by assumption, by assumption, by assumption, rfl⟩

theorem setFiles_results (s : AppState) (ty : ModKind) (l : List UploadedFile) :
    (setFiles s ty l).results = s.results := by
  cases ty <;> rfl

/-- C8: in every reachable application state, every stored result's
prediction is 'Seizure Risk' exactly when its confidence (the returned
seizure probability) exceeds 0.7, and is otherwise 'Normal'; the third
value 'Pre-ictal' permitted by the result type is never produced. -/
theorem reachable_results_inv (s : AppState) (h : Reachable s) :
    ∀ r ∈ s.results,
      (r.prediction = Prediction.SeizureRisk ↔ 7 / 10 < r.confidence) ∧
      r.prediction ≠ Prediction.PreIctal := by
  induction h with
  | init => intro r hr; simp [initState] at hr
  | step hs ev ih =>
    rename_i s'
    cases ev with
    | upload ty files =>
        have hres : (Frontend.step s' (.upload ty files)).results = s'.results := by
          cases files <;> simp [Frontend.step, handleFileUpload, setFiles_results]
        rw [hres]; exact ih
    | remove ty idx =>
        have hres : (Frontend.step s' (.remove ty idx)).results = s'.results := by
          simp [Frontend.step, removeFile, setFiles_results]
        rw [hres]; exact ih
    | setTab t => exact ih
    | setConfig c => exact ih
    | process env =>
        rcases sim_results_or s' env with h1 | ⟨prob, h2, _⟩
        · intro r hr
          have hr' : r ∈ (simulateProcessing s' env).results := hr
          rw [h1] at hr'
          exact ih r hr'
        · intro r hr
          have hr' : r ∈ (simulateProcessing s' env).results := hr
          rw [h2] at hr'
          simp only [List.mem_singleton] at hr'
          subst hr'
          by_cases hp : (7 : ℚ) / 10 < prob <;> simp [mkResult, hp]

/-- Witness for C8: the state reached by uploading one file per
modality and running one successful processing pass stores exactly one
result, and it satisfies the invariant. -/
theorem reachable_results_inv_witness :
    resultDone ∈ sDone.results ∧
    ((resultDone.prediction = Prediction.SeizureRisk ↔
        7 / 10 < resultDone.confidence) ∧
      resultDone.prediction ≠ Prediction.PreIctal) :=
  ⟨List.mem_singleton.mpr rfl,
    reachable_results_inv sDone
      (Reachable.step
        (Reachable.step
          (Reachable.step
            (Reachable.step Reachable.init (.upload .mri (some [fileNii])))
            (.upload .fmri (some [fileNii])))
          (.upload .eeg (some [fileEdf])))
        (.process envOk))
      resultDone (List.mem_singleton.mpr rfl)⟩

theorem headq_append_left {α : Type} (l l' : List α) (h : l ≠ []) :
    (l ++ l').head? = l.head? := by
  cases l with
  | nil => exact absurd rfl h
  | cons a t => rfl

/-- C9: the processing operation posts only the file stored at index 0
of each modality list — the request is unchanged by appending further
uploads to any modality, it consists of the head files, and the whole
run commutes with appending extra uploads, so every additional file is
silently ignored by prediction. -/
theorem first_file_only (s : AppState) (xs ys zs : List UploadedFile)
    (env : ProcEnv) (hm : s.mriFiles ≠ []) (hf : s.fmriFiles ≠ [])
    (he : s.eegFiles ≠ []) :
    sentRequest (appendUploads s xs ys zs) = sentRequest s ∧
    (∃ e m f, s.eegFiles.head? = some e ∧ s.mriFiles.head? = some m ∧
      s.fmriFiles.head? = some f ∧
      sentRequest s = some (e.file, m.file, f.file)) ∧
    simulateProcessing (appendUploads s xs ys zs) env =
      appendUploads (simulateProcessing s env) xs ys zs := by
  have hsr : sentRequest (appendUploads s xs ys zs) = sentRequest s := by
    unfold sentRequest appendUploads
    simp only
    rw [headq_append_left _ _ he, headq_append_left _ _ hm,
      headq_append_left _ _ hf]
  refine ⟨hsr, ?_, ?_⟩
  · cases hel : s.eegFiles with
    | nil => exact absurd hel he
    | cons e et =>
      cases hml : s.mriFiles with
      | nil => exact absurd hml hm
      | cons m mt =>
        cases hfl : s.fmriFiles with
        | nil => exact absurd hfl hf
        | cons f ft =>
          exact ⟨e, m, f, rfl, rfl, rfl, by unfold sentRequest; rw [hel, hml, hfl]; rfl⟩
  · have h1 : hasRequiredFiles (appendUploads s xs ys zs) = true := by
      simp [hasRequiredFiles, appendUploads, List.length_pos,
        List.append_eq_nil, hm, hf, he]
    have h2 : hasRequiredFiles s = true := by
      simp [hasRequiredFiles, List.length_pos, hm, hf, he]
    unfold simulateProcessing
    rw [if_neg (by simp [h1] :
        ¬(hasRequiredFiles (appendUploads s xs ys zs) = false)),
      if_neg (by simp [h2] : ¬(hasRequiredFiles s = false)), hsr]
    split
    · rfl
    · split
      · rfl
      · split
        · rfl
        · split
          · rfl
          · split
            · rfl
            · rfl

/-- Witness for C9: appending a second MRI upload to a fully populated
state changes neither the posted request nor the processing outcome
beyond carrying the extra file. -/
theorem first_file_only_witness :
    (sUp.mriFiles ≠ [] ∧ sUp.fmriFiles ≠ [] ∧ sUp.eegFiles ≠ []) ∧
    sentRequest (appendUploads sUp [mkUploadedFile fileNii] [] []) =
      sentRequest sUp ∧
    simulateProcessing (appendUploads sUp [mkUploadedFile fileNii] [] []) envOk =
      appendUploads (simulateProcessing sUp envOk) [mkUploadedFile fileNii] [] [] :=
  ⟨⟨by decide, by decide, by decide⟩,
    (first_file_only sUp [mkUploadedFile fileNii] [] [] envOk
      (by decide) (by decide) (by decide)).1,
    (first_file_only sUp [mkUploadedFile fileNii] [] [] envOk
      (by decide) (by decide) (by decide)).2.2⟩

/-- C10: the health check is total — it returns a boolean for every
outcome of the underlying request and never throws: `true` exactly
when the request resolved with an ok response, `false` exactly on an
ok=false response or on any network failure. -/
theorem checkBackendHealth_total (o : Except String HttpResponse) :
    (checkBackendHealth o = true ↔ ∃ r, o = .ok r ∧ r.ok = true) ∧
    (checkBackendHealth o = false ↔
      (∃ r, o = .ok r ∧ r.ok = false) ∨ ∃ e, o = .error e) := by
  cases o with
  | error e => simp [checkBackendHealth]
  | ok r => simp [checkBackendHealth]

/-- Witness for C10: a rejected fetch yields `false`, not an
exception. -/
theorem checkBackendHealth_total_witness :
    checkBackendHealth (Except.error "connection refused") = false :=
  ((checkBackendHealth_total (Except.error "connection refused")).2).mpr
    (Or.inr ⟨"connection refused", rfl⟩)
